import Mathlib

/-!
Verification of the configuration-list resolution / fallback protocol and the
keyed response-cache contract documented for this repository.  The repository
ships only documentation (notebook cells and FAQ prose) describing
`config_list_from_json`, `filter_config`, the fallback iteration over a
`config_list`, and the seeded LLM cache; the implementation itself is not among
the supplied files.  The definitions below are therefore modelled from the
specification's words and checked against the concrete examples that do appear
in the supplied notebook (the two-config tag-filtering example with its
`assert len(config_list) == 1`).
-/

set_option maxHeartbeats 1000000

namespace AutogenSpec

/-- Modelled from the spec: an `EndpointConfig` record (spec §3) — model
identifier (required), optional credential, base address, API variant,
API version, and a list of string tags used for filtering. -/
structure EndpointConfig where
  model : String
  api_key : Option String := none
  base_url : Option String := none
  api_type : Option String := none
  api_version : Option String := none
  tags : List String := []
deriving DecidableEq, Repr

/-- Modelled from the spec: a raw parsed record before validation; every
field, the model identifier included, may still be absent (spec §4.1). -/
structure RawRecord where
  model : Option String := none
  api_key : Option String := none
  base_url : Option String := none
  api_type : Option String := none
  api_version : Option String := none
  tags : List String := []
deriving DecidableEq, Repr

/-- Modelled from the spec: the error kinds of the resolver (spec §7). -/
inductive ConfigError where
  | ConfigNotFoundError
  | ConfigMalformedError
deriving DecidableEq, Repr

/-- Modelled from the spec: validating one raw record into an
`EndpointConfig`; a record missing the required model identifier fails with
`ConfigMalformedError` (spec §4.1, source notebook: `model (str, required)`). -/
def toEndpointConfig (r : RawRecord) : Except ConfigError EndpointConfig :=
  match r.model with
  | some m =>
      Except.ok { model := m, api_key := r.api_key, base_url := r.base_url,
                  api_type := r.api_type, api_version := r.api_version,
                  tags := r.tags }
  | none => Except.error ConfigError.ConfigMalformedError

/-- Modelled from the spec: validating the whole record list; the first
malformed record aborts the whole resolution, no partial list (spec §4.1). -/
def parseRecords : List RawRecord → Except ConfigError (List EndpointConfig)
  | [] => Except.ok []
  | r :: rs =>
      match toEndpointConfig r with
      | Except.error e => Except.error e
      | Except.ok c =>
          match parseRecords rs with
          | Except.error e => Except.error e
          | Except.ok cs => Except.ok (c :: cs)

/-- Modelled from the spec: a `FilterPredicate` — a mapping from field name to
one-or-many acceptable values; the `tags` field is matched by set
intersection, scalar fields by exact membership (spec §3, §4.1). -/
structure FilterDict where
  model : Option (List String) := none
  api_type : Option (List String) := none
  tags : Option (List String) := none
deriving DecidableEq, Repr

/-- Modelled from the spec: a scalar filter field passes when the record's
value is one of the acceptable values, exactly (spec §4.1). -/
def passesScalar (acceptable : Option (List String)) (value : Option String) : Bool :=
  match acceptable with
  | none => true
  | some vs =>
      match value with
      | some v => vs.contains v
      | none => false

/-- Modelled from the spec: the tags filter field passes when the record
shares at least one tag with the filter's tag list (spec §3, §4.1). -/
def passesTags (acceptable : Option (List String)) (tags : List String) : Bool :=
  match acceptable with
  | none => true
  | some ts => tags.any (fun t => ts.contains t)

/-- Modelled from the spec: a record is kept only when ALL filter keys pass —
a conjunction across fields (spec §4.1). -/
def passesFilter (f : FilterDict) (c : EndpointConfig) : Bool :=
  passesScalar f.model (some c.model) &&
  passesScalar f.api_type c.api_type &&
  passesTags f.tags c.tags

/-- Modelled from the spec: `filter_config` — keeps, in original order, the
records passing every filter key; a `none` filter keeps everything
(spec §4.1, source notebook: `autogen.filter_config(config_list, filter_dict)`). -/
def filter_config (configs : List EndpointConfig) (f : Option FilterDict) :
    List EndpointConfig :=
  match f with
  | none => configs
  | some fd => configs.filter (fun c => passesFilter fd c)

/-- Modelled from the spec: the three-step source resolution of
`config_list_from_json` (spec §4.1): (a) if `source` names an environment
variable whose value is a path to an existing, readable, parseable file, load
and parse that file; (b) else if the variable's value itself parses, use it;
(c) else open `source` itself as a file path and parse it; all three failing
is `ConfigNotFoundError`.  The environment snapshot, the filesystem accessor
and the structured-format parser are explicit parameters (spec §9). -/
def resolveSource (env fs : String → Option String)
    (parse : String → Option (List RawRecord)) (source : String) :
    Except ConfigError (List RawRecord) :=
  match env source with
  | some v =>
      match (fs v).bind parse with
      | some recs => Except.ok recs
      | none =>
          match parse v with
          | some recs => Except.ok recs
          | none =>
              match (fs source).bind parse with
              | some recs => Except.ok recs
              | none => Except.error ConfigError.ConfigNotFoundError
  | none =>
      match (fs source).bind parse with
      | some recs => Except.ok recs
      | none => Except.error ConfigError.ConfigNotFoundError

/-- Modelled from the spec: `resolve(source, filter)` — resolve the source,
validate every record, then apply the optional filter post-parse
(spec §4.1). -/
def resolve (env fs : String → Option String)
    (parse : String → Option (List RawRecord)) (source : String)
    (f : Option FilterDict) : Except ConfigError (List EndpointConfig) :=
  match resolveSource env fs parse source with
  | Except.error e => Except.error e
  | Except.ok raws =>
      match parseRecords raws with
      | Except.error e => Except.error e
      | Except.ok cfgs => Except.ok (filter_config cfgs f)

/-- Modelled from the spec: `config_list_from_json(env_or_file, filter_dict)`
is the same one-step loader (source notebook lines on
`config_list_from_json`); it resolves and filters in one call. -/
def config_list_from_json (env fs : String → Option String)
    (parse : String → Option (List RawRecord)) (env_or_file : String)
    (filter_dict : Option FilterDict) : Except ConfigError (List EndpointConfig) :=
  resolve env fs parse env_or_file filter_dict

/-- Modelled from the spec: the outcome of attempting one endpoint config —
either a successful completion or a retryable failure carrying its cause
(spec §4.2). -/
inductive AttemptResult (α : Type) where
  | success (value : α)
  | retryable (cause : String)
deriving DecidableEq, Repr

/-- Modelled from the spec: the fallback iteration protocol (spec §4.2,
source notebook: the agent uses the very first model in the `config_list`
and retries against the next on failure).  Returns the list of configs
attempted, in order, together with either the first success or the ordered
list of per-config failure causes (the payload of
`AllEndpointsExhaustedError`). -/
def fallbackRun {α : Type} (outcome : EndpointConfig → AttemptResult α) :
    List EndpointConfig → List EndpointConfig × Except (List String) α
  | [] => ([], Except.error [])
  | c :: rest =>
      match outcome c with
      | AttemptResult.success v => ([c], Except.ok v)
      | AttemptResult.retryable cause =>
          let r := fallbackRun outcome rest
          (c :: r.1,
            match r.2 with
            | Except.ok v => Except.ok v
            | Except.error causes => Except.error (cause :: causes))

/-- Modelled from the spec: the keyed response cache handle (spec §4.3) — a
seed (`none` is the disabled sentinel) and a backing store of key/value
entries; the most recent entry for a key wins. -/
structure ResponseCache (κ ω : Type) where
  seed : Option Nat
  store : List (κ × ω)
deriving Repr

/-- Modelled from the spec: most-recent-entry association lookup used by the
cache store. -/
def lookupEntry {κ ω : Type} [DecidableEq κ] : List (κ × ω) → κ → Option ω
  | [], _ => none
  | e :: rest, q => if q = e.1 then some e.2 else lookupEntry rest q

/-- Modelled from the spec: `put(key, response)` — a no-op when the seed is
the disabled sentinel, otherwise stores the entry (spec §4.3). -/
def ResponseCache.put {κ ω : Type} [DecidableEq κ] (c : ResponseCache κ ω)
    (k : κ) (v : ω) : ResponseCache κ ω :=
  match c.seed with
  | none => c
  | some _ => { c with store := (k, v) :: c.store }

/-- Modelled from the spec: `get(key)` — always absent when the seed is the
disabled sentinel, otherwise the stored response for the key (spec §4.3). -/
def ResponseCache.get {κ ω : Type} [DecidableEq κ] (c : ResponseCache κ ω)
    (k : κ) : Option ω :=
  match c.seed with
  | none => none
  | some _ => lookupEntry c.store k

/-- Modelled from the spec: the canonical ordering used by payload
normalization — lexicographic on (field name, field value) (spec §4.3, §9:
the implementer defines a canonical serialization). -/
def entryLe (a b : String × String) : Prop :=
  a.1 < b.1 ∨ (a.1 = b.1 ∧ a.2 ≤ b.2)

instance : DecidableRel entryLe := fun a b =>
  inferInstanceAs (Decidable (a.1 < b.1 ∨ (a.1 = b.1 ∧ a.2 ≤ b.2)))

instance : IsTotal (String × String) entryLe where
  total a b := by
    rcases lt_trichotomy a.1 b.1 with h | h | h
    · exact Or.inl (Or.inl h)
    · rcases le_total a.2 b.2 with h2 | h2
      · exact Or.inl (Or.inr ⟨h, h2⟩)
      · exact Or.inr (Or.inr ⟨h.symm, h2⟩)
    · exact Or.inr (Or.inl h)

instance : IsTrans (String × String) entryLe where
  trans a b c hab hbc := by
    rcases hab with hab | ⟨hab1, hab2⟩
    · rcases hbc with hbc | ⟨hbc1, hbc2⟩
      · exact Or.inl (lt_trans hab hbc)
      · exact Or.inl (hbc1 ▸ hab)
    · rcases hbc with hbc | ⟨hbc1, hbc2⟩
      · exact Or.inl (hab1 ▸ hbc)
      · exact Or.inr ⟨hab1.trans hbc1, le_trans hab2 hbc2⟩

instance : IsAntisymm (String × String) entryLe where
  antisymm a b hab hba := by
    rcases hab with hab | ⟨hab1, hab2⟩
    · rcases hba with hba | ⟨hba1, hba2⟩
      · exact absurd (lt_trans hab hba) (lt_irrefl _)
      · exact absurd hab (hba1 ▸ lt_irrefl _)
    · rcases hba with hba | ⟨hba1, hba2⟩
      · exact absurd hba (hab1 ▸ lt_irrefl _)
      · exact Prod.ext hab1 (le_antisymm hab2 hba2)

/-- Modelled from the spec: payload normalization — a canonical serialization
of the request parameters, insensitive to incidental field ordering
(spec §4.3). -/
def normalizePayload (p : List (String × String)) : List (String × String) :=
  p.insertionSort entryLe

/-- Modelled from the spec: cache key construction — a deterministic function
of the seed value and the normalized request payload (spec §4.3). -/
def cacheKey (seed : Nat) (payload : List (String × String)) :
    Nat × List (String × String) :=
  (seed, normalizePayload payload)

/-- Modelled from the spec: a cache-consulting request — the backend is
invoked only on a cache miss; the Bool records whether the backend ran
(spec §2: consult the cache before each attempt, populate it after). -/
def cachedCall {κ ω : Type} [DecidableEq κ] (c : ResponseCache κ ω) (k : κ)
    (backend : Unit → ω) : ResponseCache κ ω × ω × Bool :=
  match c.get k with
  | some v => (c, v, false)
  | none =>
      let v := backend ()
      (c.put k v, v, true)

/-- The two-config example from the supplied notebook: a gpt-4 config tagged
`gpt4`/`openai` and a llama-7B config tagged `llama`/`local`. -/
def docConfigList : List EndpointConfig :=
  [ { model := "gpt-4", api_key := some "", tags := ["gpt4", "openai"] },
    { model := "llama-7B", base_url := some "http://127.0.0.1:8080",
      tags := ["llama", "local"] } ]

/-- The tag filter from the supplied notebook. -/
def docFilter : FilterDict := { tags := some ["llama", "another_tag"] }

/-- The llama config of the notebook example. -/
def docLlamaConfig : EndpointConfig :=
  { model := "llama-7B", base_url := some "http://127.0.0.1:8080",
    tags := ["llama", "local"] }

theorem foldl_put_disabled {κ ω : Type} [DecidableEq κ] (c : ResponseCache κ ω)
    (h : c.seed = none) :
    ∀ ops : List (κ × ω), ops.foldl (fun acc e => acc.put e.1 e.2) c = c
  | [] => rfl
  | e :: ops => by
      rw [List.foldl_cons]
      have hp : c.put e.1 e.2 = c := by simp [ResponseCache.put, h]
      rw [hp]
      exact foldl_put_disabled c h ops

/-- Claim C5: with an enabled seed, `put(key, value)` followed by `get(key)`
within the same scope returns `value` exactly, for any key/value pair. -/
theorem cache_put_get_roundtrip {κ ω : Type} [DecidableEq κ]
    (c : ResponseCache κ ω) (s : Nat) (k : κ) (v : ω) (h : c.seed = some s) :
    (c.put k v).get k = some v := by
  simp [ResponseCache.put, ResponseCache.get, h, lookupEntry]

/-- Witness for C5 at a concrete cache, key and value. -/
theorem cache_put_get_roundtrip_witness :
    ((ResponseCache.mk (some 41) ([] : List (Nat × Nat))).put 7 99).get 7 = some 99 :=
  cache_put_get_roundtrip (ResponseCache.mk (some 41) []) 41 7 99 rfl

/-- Claim C6: when the seed is the disabled sentinel (`none`), caching is
disabled entirely: `get` reports absent for every key regardless of any prior
`put` calls, and `put` is a no-op. -/
theorem cache_disabled {κ ω : Type} [DecidableEq κ] (c : ResponseCache κ ω)
    (h : c.seed = none) :
    (∀ k, c.get k = none) ∧ (∀ k v, c.put k v = c) ∧
    (∀ (ops : List (κ × ω)) (k : κ),
        ((ops.foldl (fun acc e => acc.put e.1 e.2) c).get k) = none) := by
  refine ⟨fun k => by simp [ResponseCache.get, h],
    fun k v => by simp [ResponseCache.put, h], fun ops k => ?_⟩
  rw [foldl_put_disabled c h ops]
  simp [ResponseCache.get, h]

/-- Witness for C6 at a concrete disabled cache after concrete puts. -/
theorem cache_disabled_witness :
    (((([((3 : Nat), (7 : Nat)), (4, 8)] : List (Nat × Nat)).foldl
        (fun acc e => acc.put e.1 e.2)
        (ResponseCache.mk none ([] : List (Nat × Nat)))).get 3) = none) :=
  (cache_disabled (ResponseCache.mk none []) rfl).2.2 [(3, 7), (4, 8)] 3

/-- Claim C3: a record is kept by filtering if and only if every filter key
passes — a conjunction across fields — where scalar fields pass by exact
membership of the acceptable values and the tags field passes by set
intersection (at least one shared tag includes the record, none excludes it);
in particular, filtering the documented two-config example with tags
`["llama", "another_tag"]` yields exactly the llama config. -/
theorem filter_config_semantics :
    (∀ (f : FilterDict) (cfgs : List EndpointConfig) (c : EndpointConfig),
        c ∈ filter_config cfgs (some f) ↔ c ∈ cfgs ∧ passesFilter f c = true) ∧
    (∀ (f : FilterDict) (c : EndpointConfig),
        passesFilter f c = true ↔
          (passesScalar f.model (some c.model) = true ∧
           passesScalar f.api_type c.api_type = true ∧
           passesTags f.tags c.tags = true)) ∧
    (∀ (ts : List String) (c : EndpointConfig),
        passesTags (some ts) c.tags = true ↔ ∃ t ∈ c.tags, t ∈ ts) ∧
    filter_config docConfigList (some docFilter) = [docLlamaConfig] ∧
    (filter_config docConfigList (some docFilter)).length = 1 := by
  refine ⟨fun f cfgs c => ?_, fun f c => ?_, fun ts c => ?_, ?_, ?_⟩
  · simp [filter_config, List.mem_filter]
  · simp [passesFilter, Bool.and_eq_true, and_assoc]
  · simp [passesTags, List.any_eq_true]
  · rfl
  · rfl

/-- Witness for C3: the llama config is kept, via the membership
characterization, at the notebook's concrete inputs. -/
theorem filter_config_semantics_witness :
    docLlamaConfig ∈ filter_config docConfigList (some docFilter) :=
  (filter_config_semantics.1 docFilter docConfigList docLlamaConfig).mpr
    ⟨by decide, by decide⟩

/-- Claim C1: `resolve(source, filter)` follows the three-step resolution
order, first success wins: (a) an environment variable whose value is a path
to an existing, readable, parseable file loads that file; (b) else an
environment value that itself parses is used directly; (c) else `source`
itself is opened as a file path and parsed; when (a) and (b) are both
nominally valid the file path takes precedence; all three failing yields
`ConfigNotFoundError`. -/
theorem resolution_order (env fs : String → Option String)
    (parse : String → Option (List RawRecord)) (source : String) :
    (∀ v s recs, env source = some v → fs v = some s → parse s = some recs →
        resolveSource env fs parse source = Except.ok recs) ∧
    (∀ v s recs recs2, env source = some v → fs v = some s →
        parse s = some recs → parse v = some recs2 →
        resolveSource env fs parse source = Except.ok recs) ∧
    (∀ v recs, env source = some v → (fs v).bind parse = none →
        parse v = some recs → resolveSource env fs parse source = Except.ok recs) ∧
    (∀ v recs, env source = some v → (fs v).bind parse = none → parse v = none →
        (fs source).bind parse = some recs →
        resolveSource env fs parse source = Except.ok recs) ∧
    (∀ recs, env source = none → (fs source).bind parse = some recs →
        resolveSource env fs parse source = Except.ok recs) ∧
    (∀ v, env source = some v → (fs v).bind parse = none → parse v = none →
        (fs source).bind parse = none →
        resolveSource env fs parse source =
          Except.error ConfigError.ConfigNotFoundError) ∧
    (env source = none → (fs source).bind parse = none →
        resolveSource env fs parse source =
          Except.error ConfigError.ConfigNotFoundError) := by
  refine ⟨fun v s recs h1 h2 h3 => ?_, fun v s recs recs2 h1 h2 h3 h4 => ?_,
    fun v recs h1 h2 h3 => ?_, fun v recs h1 h2 h3 h4 => ?_,
    fun recs h1 h2 => ?_, fun v h1 h2 h3 h4 => ?_, fun h1 h2 => ?_⟩
  · have hb : (fs v).bind parse = some recs := by rw [h2]; exact h3
    simp only [resolveSource, h1, hb]
  · have hb : (fs v).bind parse = some recs := by rw [h2]; exact h3
    simp only [resolveSource, h1, hb]
  · simp only [resolveSource, h1, h2, h3]
  · simp only [resolveSource, h1, h2, h3, h4]
  · simp only [resolveSource, h1, h2]
  · simp only [resolveSource, h1, h2, h3, h4]
  · simp only [resolveSource, h1, h2]

/-- Witness for C1: each of the seven branches of the resolution order at
concrete environments, filesystems and parsers. -/
theorem resolution_order_witness :
    (resolveSource (fun v => if v = "VAR" then some "path" else none)
        (fun p => if p = "path" then some "filetext" else none)
        (fun s => if s = "filetext" then some [{ model := some "gpt-4" }] else none)
        "VAR" = Except.ok [{ model := some "gpt-4" }]) ∧
    (resolveSource (fun v => if v = "VAR" then some "inline" else none)
        (fun _ => none)
        (fun s => if s = "inline" then some [{ model := some "gpt-4" }] else none)
        "VAR" = Except.ok [{ model := some "gpt-4" }]) ∧
    (resolveSource (fun _ => none)
        (fun p => if p = "direct.json" then some "filetext" else none)
        (fun s => if s = "filetext" then some [{ model := some "gpt-4" }] else none)
        "direct.json" = Except.ok [{ model := some "gpt-4" }]) ∧
    (resolveSource (fun _ => none) (fun _ => none) (fun _ => none) "nothing" =
        Except.error ConfigError.ConfigNotFoundError) := by
  refine ⟨?_, ?_, ?_, ?_⟩
  · exact (resolution_order _ _ _ "VAR").1 "path" "filetext" _ rfl rfl rfl
  · exact (resolution_order _ _ _ "VAR").2.2.1 "inline" _ rfl rfl rfl
  · exact (resolution_order _ _ _ "direct.json").2.2.2.2.1 _ rfl rfl
  · exact (resolution_order _ _ _ "nothing").2.2.2.2.2.2 rfl rfl

/-- Claim C2: the fallback protocol attempts configs strictly in list order:
if the first M configs fail with retryable errors and the next succeeds,
exactly those M+1 configs are attempted in order and the success is returned;
if all N fail, the protocol fails carrying exactly N per-config causes in
original list order. -/
theorem fallback_protocol {α : Type} (outcome : EndpointConfig → AttemptResult α) :
    (∀ (pre : List EndpointConfig) (c : EndpointConfig)
        (post : List EndpointConfig) (v : α),
        (∀ c' ∈ pre, ∃ cause, outcome c' = AttemptResult.retryable cause) →
        outcome c = AttemptResult.success v →
        fallbackRun outcome (pre ++ c :: post) = (pre ++ [c], Except.ok v)) ∧
    (∀ (cs : List EndpointConfig) (cause : EndpointConfig → String),
        (∀ c ∈ cs, outcome c = AttemptResult.retryable (cause c)) →
        fallbackRun outcome cs = (cs, Except.error (cs.map cause))) := by
  constructor
  · intro pre c post v hpre hc
    induction pre with
    | nil => simp [fallbackRun, hc]
    | cons p pre ih =>
        obtain ⟨cause, hcause⟩ := hpre p (List.mem_cons_self p pre)
        have ih2 := ih (fun c' hc' => hpre c' (List.mem_cons_of_mem p hc'))
        simp only [List.cons_append, fallbackRun, hcause, List.append_eq, ih2]
  · intro cs cause hall
    induction cs with
    | nil => rfl
    | cons c cs ih =>
        have hc := hall c (List.mem_cons_self c cs)
        have ih2 := ih (fun c' hc' => hall c' (List.mem_cons_of_mem c hc'))
        simp only [fallbackRun, hc, ih2, List.map_cons]

/-- Witness for C2: a concrete two-config run where the first config is rate
limited and the second succeeds, and a concrete run where both fail. -/
theorem fallback_protocol_witness :
    (fallbackRun
        (fun c => if c.model = "gpt-4" then AttemptResult.retryable "rate limit"
          else AttemptResult.success (0 : Nat)) docConfigList =
      (docConfigList, Except.ok 0)) ∧
    (fallbackRun
        (fun c => (AttemptResult.retryable c.model : AttemptResult Nat))
        docConfigList =
      (docConfigList, Except.error ["gpt-4", "llama-7B"])) := by
  constructor
  · have h := (fallback_protocol (fun c =>
        if c.model = "gpt-4" then AttemptResult.retryable "rate limit"
        else AttemptResult.success (0 : Nat))).1
      [{ model := "gpt-4", api_key := some "", tags := ["gpt4", "openai"] }]
      docLlamaConfig [] 0 (fun c' hc' => by
        simp only [List.mem_singleton] at hc'
        exact ⟨"rate limit", by rw [hc']; rfl⟩) (by decide)
    exact h
  · have h := (fallback_protocol (fun c =>
        (AttemptResult.retryable c.model : AttemptResult Nat))).2
      docConfigList (fun c => c.model) (fun c hc => rfl)
    exact h

theorem toEndpointConfig_error_eq (r : RawRecord) (e : ConfigError)
    (h : toEndpointConfig r = Except.error e) :
    e = ConfigError.ConfigMalformedError := by
  unfold toEndpointConfig at h
  cases hm : r.model with
  | some m => rw [hm] at h; exact absurd h (by simp)
  | none => rw [hm] at h; exact (Except.error.inj h).symm

theorem parseRecords_malformed :
    ∀ (raws : List RawRecord) (r : RawRecord), r ∈ raws → r.model = none →
      parseRecords raws = Except.error ConfigError.ConfigMalformedError := by
  intro raws
  induction raws with
  | nil => intro r hr; exact absurd hr (List.not_mem_nil r)
  | cons r0 rs ih =>
      intro r hr hmodel
      rcases List.mem_cons.mp hr with h | h
      · subst h
        simp [parseRecords, toEndpointConfig, hmodel]
      · cases h0 : toEndpointConfig r0 with
        | error e =>
            rw [toEndpointConfig_error_eq r0 e h0] at h0
            simp [parseRecords, h0]
        | ok c => simp [parseRecords, h0, ih r h hmodel]

/-- Claim C4: a source containing at least one record lacking the required
model identifier makes `resolve` fail with `ConfigMalformedError` and return
no partial list, even when the source also contains valid records. -/
theorem malformed_record_aborts (env fs : String → Option String)
    (parse : String → Option (List RawRecord)) (source : String) :
    (∀ (raws : List RawRecord) (r : RawRecord), r ∈ raws → r.model = none →
        parseRecords raws = Except.error ConfigError.ConfigMalformedError) ∧
    (∀ (raws : List RawRecord) (r : RawRecord), r ∈ raws → r.model = none →
        resolveSource env fs parse source = Except.ok raws →
        ∀ f, resolve env fs parse source f =
          Except.error ConfigError.ConfigMalformedError) := by
  refine ⟨parseRecords_malformed, fun raws r hr hmodel hres f => ?_⟩
  simp only [resolve, hres, parseRecords_malformed raws r hr hmodel]

/-- Witness for C4: a concrete source holding one valid and one invalid
record aborts entirely with `ConfigMalformedError`. -/
theorem malformed_record_aborts_witness :
    resolve (fun _ => none)
      (fun p => if p = "mixed.json" then some "mixedtext" else none)
      (fun s => if s = "mixedtext" then
          some [{ model := some "gpt-4" }, { model := none, api_key := some "k" }]
        else none)
      "mixed.json" none = Except.error ConfigError.ConfigMalformedError :=
  (malformed_record_aborts _ _ _ "mixed.json").2
    [{ model := some "gpt-4" }, { model := none, api_key := some "k" }]
    { model := none, api_key := some "k" } (by decide) rfl (by simp [resolveSource]) none

theorem normalizePayload_perm (p1 p2 : List (String × String)) (h : p1.Perm p2) :
    normalizePayload p1 = normalizePayload p2 :=
  List.eq_of_perm_of_sorted
    ((List.perm_insertionSort entryLe p1).trans
      (h.trans (List.perm_insertionSort entryLe p2).symm))
    (List.sorted_insertionSort entryLe p1)
    (List.sorted_insertionSort entryLe p2)

/-- Claim C7: cache key construction is deterministic — identical seed and
semantically identical request payloads (any permutation of the same fields)
derive the same key; and while an entry for a key exists, a request with that
key returns the stored response without invoking the backend. -/
theorem cache_key_deterministic :
    (∀ (seed : Nat) (p1 p2 : List (String × String)), p1.Perm p2 →
        cacheKey seed p1 = cacheKey seed p2) ∧
    (∀ (κ ω : Type) [DecidableEq κ] (c : ResponseCache κ ω) (k : κ)
        (backend : Unit → ω) (v : ω), c.get k = some v →
        cachedCall c k backend = (c, v, false)) := by
  constructor
  · intro seed p1 p2 h
    unfold cacheKey
    rw [normalizePayload_perm p1 p2 h]
  · intro κ ω inst c k backend v h
    unfold cachedCall
    rw [h]

/-- Witness for C7: two field orderings of the same payload share a key, and
a concrete cached entry is served without invoking the backend. -/
theorem cache_key_deterministic_witness :
    (cacheKey 42 [("model", "gpt-4"), ("temperature", "0.9")] =
      cacheKey 42 [("temperature", "0.9"), ("model", "gpt-4")]) ∧
    (cachedCall (ResponseCache.mk (some 1) [((2 : Nat), (5 : Nat))]) 2
        (fun _ => 0) =
      (ResponseCache.mk (some 1) [(2, 5)], 5, false)) := by
  constructor
  · exact cache_key_deterministic.1 42 _ _
      (List.Perm.swap ("temperature", "0.9") ("model", "gpt-4") [])
  · exact cache_key_deterministic.2 Nat Nat
      (ResponseCache.mk (some 1) [(2, 5)]) 2 (fun _ => 0) 5 rfl

/-- The raw records behind the notebook's two-config example, for concrete
resolution runs. -/
def docRawList : List RawRecord :=
  [ { model := some "gpt-4", api_key := some "", tags := ["gpt4", "openai"] },
    { model := some "llama-7B", base_url := some "http://127.0.0.1:8080",
      tags := ["llama", "local"] } ]

/-- A concrete filesystem holding the example records at `cfg.json`. -/
def fsDoc : String → Option String :=
  fun p => if p = "cfg.json" then some "doctext" else none

/-- A concrete structured-format reader for the example file contents. -/
def parseDoc : String → Option (List RawRecord) :=
  fun s => if s = "doctext" then some docRawList else none

/-- Claim C8: for every source and valid filter, the output of
`resolve(source, filter)` is a subset of the output of `resolve(source, none)`
preserving the relative order of the original source; no implicit sorting or
deduplication is applied. -/
theorem filtered_resolve_sublist :
    (∀ (cfgs : List EndpointConfig) (f : FilterDict),
        List.Sublist (filter_config cfgs (some f)) (filter_config cfgs none)) ∧
    (∀ cfgs : List EndpointConfig, filter_config cfgs none = cfgs) ∧
    (∀ (env fs : String → Option String)
        (parse : String → Option (List RawRecord)) (source : String)
        (f : FilterDict) (l l' : List EndpointConfig),
        resolve env fs parse source (some f) = Except.ok l →
        resolve env fs parse source none = Except.ok l' →
        List.Sublist l l') := by
  refine ⟨fun cfgs f => List.filter_sublist cfgs, fun cfgs => rfl,
    fun env fs parse source f l l' h1 h2 => ?_⟩
  unfold resolve at h1 h2
  cases hres : resolveSource env fs parse source with
  | error e => simp [hres] at h1
  | ok raws =>
      cases hp : parseRecords raws with
      | error e => simp [hres, hp] at h1
      | ok cfgs =>
          simp only [hres, hp] at h1 h2
          have e1 : filter_config cfgs (some f) = l := Except.ok.inj h1
          have e2 : filter_config cfgs none = l' := Except.ok.inj h2
          rw [← e1, ← e2]
          exact List.filter_sublist cfgs

/-- Witness for C8: the filtered resolution of the concrete example source is
a sublist of the unfiltered one. -/
theorem filtered_resolve_sublist_witness :
    List.Sublist [docLlamaConfig] docConfigList :=
  filtered_resolve_sublist.2.2 (fun _ => none) fsDoc parseDoc "cfg.json"
    docFilter [docLlamaConfig] docConfigList rfl rfl

/-- Claim C10: loading with a filter in one step equals loading then
filtering: `config_list_from_json(env_or_file, filter_dict)` yields the same
result as applying `filter_config` to `config_list_from_json(env_or_file)`. -/
theorem config_list_from_json_compose (env fs : String → Option String)
    (parse : String → Option (List RawRecord)) (env_or_file : String)
    (filter_dict : FilterDict) :
    config_list_from_json env fs parse env_or_file (some filter_dict) =
      Except.map (fun cfgs => filter_config cfgs (some filter_dict))
        (config_list_from_json env fs parse env_or_file none) := by
  unfold config_list_from_json resolve
  cases resolveSource env fs parse env_or_file with
  | error e => rfl
  | ok raws =>
      cases hp : parseRecords raws with
      | error e => simp [hp, Except.map]
      | ok cfgs => simp [hp, Except.map, filter_config]

end AutogenSpec
